import Mathlib

/-!
Verification of the reload-decision and update-application engine of the
Reloader fork (internal/pkg/handler/upgrade.go and deplayed_upgrade.go).

The Go code is embedded shallowly: slices become lists, the process-wide
`DelayedUpgrades` map becomes an explicit association list threaded through
the functions, pointer mutation of containers becomes state passing, and the
spawned timer goroutine of a delayed batch is tracked by a counter of timers
started.  The `invokeStrategy` function value is a parameter, exactly as in
the source.
-/

namespace Reloader

/-- The `constants.Result` values used by the handler package. -/
inductive Result where
  | Updated
  | NotUpdated
  | NoContainerFound
  | NoEnvVarFound
  deriving Repr, DecidableEq

/-- Modelled from the repository's constants package (not under src/):
`constants.ConfigmapEnvVarPostfix`, the kind tag carried by a ConfigMap
change. Only its distinctness from the Secret tag matters here. -/
def configmapKind : String := "CONFIGMAP"

/-- Modelled from the repository's constants package (not under src/):
`constants.SecretEnvVarPostfix`, the kind tag carried by a Secret change. -/
def secretKind : String := "SECRET"

/-- Modelled from the spec: the generic auto-reload annotation key
(`options.ReloaderAutoAnnotation`, options package not under src/). -/
def reloaderAutoKey : String := "reloader.stakater.com/auto"

/-- Modelled from the spec: the generic auto-search annotation key
(`options.AutoSearchAnnotation`). -/
def autoSearchKey : String := "reloader.stakater.com/search"

/-- Modelled from the spec: the match annotation key read on the
ConfigMap/Secret itself (`options.SearchMatchAnnotation`). -/
def searchMatchKey : String := "reloader.stakater.com/match"

/-- Modelled from the spec: the ConfigMap exclude-list annotation key
(`options.ConfigmapExcludeReloaderAnnotation`). -/
def cmExcludeKey : String := "configmaps.exclude.reloader.stakater.com/reload"

/-- Modelled from the spec: the Secret exclude-list annotation key
(`options.SecretExcludeReloaderAnnotation`). -/
def secretExcludeKey : String := "secrets.exclude.reloader.stakater.com/reload"

/-- Modelled from the spec: the presence-only delayed-upgrade annotation key
(`options.DelayedUpgradeAnnotation`). -/
def delayedUpgradeKey : String := "reloader.stakater.com/delayed-upgrade"

/-- One detected change, `util.Config`.  `kindName` is the Go `Type` field,
`reloadKey` the Go `Annotation` field (the manual reload annotation key for
the kind), `typedAutoKey` the Go `TypedAutoAnnotation` field. -/
structure Config where
  resourceName : String
  nsName : String
  kindName : String
  reloadKey : String
  typedAutoKey : String
  shaValue : String
  resourceAnns : List (String × String) := []
  deriving Repr, DecidableEq

/-- `v1.EnvVarSource`, keeping only the referenced resource names the code
reads (`ConfigMapKeyRef.Name`, `SecretKeyRef.Name`). -/
structure EnvVarSource where
  configMapKeyRef : Option String := none
  secretKeyRef : Option String := none
  deriving Repr, DecidableEq

/-- `v1.EnvVar`. -/
structure EnvVar where
  name : String
  value : String := ""
  valueFrom : Option EnvVarSource := none
  deriving Repr, DecidableEq

/-- `v1.EnvFromSource`, keeping the referenced names
(`ConfigMapRef.Name`, `SecretRef.Name`). -/
structure EnvFromSource where
  configMapRef : Option String := none
  secretRef : Option String := none
  deriving Repr, DecidableEq

/-- `v1.VolumeMount`, of which the code only reads the name. -/
structure VolumeMount where
  name : String
  deriving Repr, DecidableEq

/-- One source of a `v1.ProjectedVolumeSource`, keeping the referenced
ConfigMap/Secret names. -/
structure VolumeProjection where
  configMap : Option String := none
  secret : Option String := none
  deriving Repr, DecidableEq

/-- `v1.Volume`: name, a direct ConfigMap source name, a direct Secret source
name, and an optional projected source list. -/
structure Volume where
  name : String
  configMap : Option String := none
  secret : Option String := none
  projected : Option (List VolumeProjection) := none
  deriving Repr, DecidableEq

/-- `v1.Container`, restricted to what the handler reads and writes. -/
structure Container where
  name : String
  env : List EnvVar := []
  envFrom : List EnvFromSource := []
  volumeMounts : List VolumeMount := []
  deriving Repr, DecidableEq

/-- One workload item together with what the per-kind
`callbacks.RollingUpgradeFuncs` accessors return for it: `AnnotationsFunc`,
`PodAnnotationsFunc`, `ContainersFunc`, `InitContainersFunc`, `VolumesFunc`,
and the accessor name used as `itemId`. -/
structure Item where
  name : String
  anns : List (String × String) := []
  podAnns : List (String × String) := []
  containers : List Container := []
  initContainers : List Container := []
  volumes : List Volume := []
  deriving Repr, DecidableEq

/-- Go map read `m[k]` on a string-keyed association list: the value alone. -/
def lookupAnn (anns : List (String × String)) (k : String) : Option String :=
  (anns.find? (fun p => p.1 == k)).map (fun p => p.2)

/-- Go two-result map read `v, found := m[k]`: missing keys give `("", false)`. -/
def getAnnVal (anns : List (String × String)) (k : String) : String × Bool :=
  match lookupAnn anns k with
  | some v => (v, true)
  | none => ("", false)

/-- Go `strconv.ParseBool` with the error ignored as the code does: inputs it
rejects come out `false`. -/
def parseBool (s : String) : Bool :=
  s == "1" || s == "t" || s == "T" || s == "TRUE" || s == "true" || s == "True"

/-- Go `strings.Split(s, ",")` on the character list: every comma separates,
and the empty string yields one empty field. -/
def splitCommaList (l : List Char) : List (List Char) :=
  match l with
  | [] => [[]]
  | c :: rest =>
      match splitCommaList rest with
      | cur :: done => if c = ',' then [] :: cur :: done else (c :: cur) :: done
      | [] => [[c]]

/-- Go `strings.Split(s, ",")`. -/
def goSplitOnComma (s : String) : List String :=
  (splitCommaList s.toList).map (fun cs => String.mk cs)

/-- Go `strings.TrimSpace` (on the ASCII whitespace the model's inputs use):
drop leading and trailing whitespace characters. -/
def goTrimSpace (s : String) : String :=
  String.mk (((s.toList.dropWhile Char.isWhitespace).reverse.dropWhile
    Char.isWhitespace).reverse)

/-- `checkIfResourceIsExcluded`: split the exclude list on commas and compare
each entry to the resource name after trimming whitespace. -/
def checkIfResourceIsExcluded (resourceName excludedResources : String) : Bool :=
  if excludedResources == "" then false
  else (goSplitOnComma excludedResources).any (fun ex => goTrimSpace ex == resourceName)

/-- `getVolumeMountName`: the name of the first volume whose direct or
projected source references the resource, else `""`. -/
def getVolumeMountName (volumes : List Volume) (mountType volumeName : String) : String :=
  match volumes.find? (fun v =>
    if mountType == configmapKind then
      v.configMap == some volumeName ||
        (match v.projected with
          | some srcs => srcs.any (fun s => s.configMap == some volumeName)
          | none => false)
    else if mountType == secretKind then
      v.secret == some volumeName ||
        (match v.projected with
          | some srcs => srcs.any (fun s => s.secret == some volumeName)
          | none => false)
    else false) with
  | some v => v.name
  | none => ""

/-- Whether a container carries a volume mount with the given name: the inner
loop of `getContainerWithVolumeMount`. -/
def containerHasVolumeMount (volumeMountName : String) (c : Container) : Bool :=
  c.volumeMounts.any (fun m => m.name == volumeMountName)

/-- The env-var test of `getContainerWithEnvReference` on one `v1.EnvVar`. -/
def envRefMatches (resourceName resourceType : String) (e : EnvVar) : Bool :=
  match e.valueFrom with
  | some src =>
      (resourceType == secretKind && src.secretKeyRef == some resourceName) ||
      (resourceType == configmapKind && src.configMapKeyRef == some resourceName)
  | none => false

/-- Whether a container references the resource through `valueFrom` or
`envFrom`: the per-container body of `getContainerWithEnvReference`. -/
def containerHasEnvReference (resourceName resourceType : String) (c : Container) : Bool :=
  c.env.any (envRefMatches resourceName resourceType) ||
  c.envFrom.any (fun ef =>
    (resourceType == secretKind && ef.secretRef == some resourceName) ||
    (resourceType == configmapKind && ef.configMapRef == some resourceName))

/-- Index of the first list element satisfying `p`; the Go helpers return a
pointer to the found slice element, modelled as its index. -/
def findIdxOpt {α : Type} (p : α → Bool) : List α → Option Nat
  | [] => none
  | a :: rest => if p a then some 0 else (findIdxOpt p rest).map (fun i => i + 1)

/-- What the resolver hands back: a pointer to regular container `i`, no
container, or the Go runtime panic that `&containers[0]` raises on an empty
regular-container slice (index out of range). -/
inductive Resolved where
  | found (i : Nat)
  | missing
  | oob
  deriving Repr, DecidableEq

/-- Go `&containers[0]`: the first regular container, or the index-out-of-range
panic when there is none. -/
def firstContainerOrOob (containers : List Container) : Resolved :=
  match containers with
  | [] => Resolved.oob
  | _ :: _ => Resolved.found 0

/-- `getContainerUsingResource`: volume-mount match on regular containers,
init-container volume-mount fallback to the first regular container, env
reference on regular containers, init-container env-reference fallback, and
the manual-annotation fallback to the first regular container when
`autoReload` is false. -/
def getContainerUsingResource (item : Item) (config : Config) (autoReload : Bool) : Resolved :=
  let volumes := item.volumes
  let containers := item.containers
  let initContainers := item.initContainers
  let volumeMountName := getVolumeMountName volumes config.kindName config.resourceName
  let viaVolume : Option Resolved :=
    if volumeMountName != "" then
      match findIdxOpt (containerHasVolumeMount volumeMountName) containers with
      | some i => some (Resolved.found i)
      | none =>
          if initContainers.length > 0 then
            match findIdxOpt (containerHasVolumeMount volumeMountName) initContainers with
            | some _ => some (firstContainerOrOob containers)
            | none => none
          else none
    else none
  match viaVolume with
  | some r => r
  | none =>
      match findIdxOpt (containerHasEnvReference config.resourceName config.kindName) containers with
      | some i => Resolved.found i
      | none =>
          if initContainers.length > 0 &&
              (findIdxOpt (containerHasEnvReference config.resourceName config.kindName)
                initContainers).isSome then
            firstContainerOrOob containers
          else if !autoReload then
            firstContainerOrOob containers
          else Resolved.missing

/-- Modelled from the spec: `util.ConvertToEnvVarName` (util package not under
src/) sanitizes the resource name into an env-var stem, upper-casing and
replacing non-alphanumeric characters. -/
def convertToEnvVarName (s : String) : String :=
  String.mk (s.toList.map (fun ch => if ch.isAlphanum then ch.toUpper else '_'))

/-- `getEnvVarName`: a fixed stem (`constants.EnvVarPrefix`, modelled from the
spec as the upstream value) plus the sanitized resource name plus the kind
tag. -/
def getEnvVarName (resourceName typeName : String) : String :=
  "STAKATER_" ++ convertToEnvVarName resourceName ++ "_" ++ typeName

/-- Set the value of the first env var with the given name, as the Go slice
write `envs[j].Value = shaData` does. -/
def setFirstEnv (env : List EnvVar) (envVar shaData : String) : List EnvVar :=
  match env with
  | [] => []
  | e :: rest =>
      if e.name == envVar then { e with value := shaData } :: rest
      else e :: setFirstEnv rest envVar shaData

/-- `updateEnvVar`: scan containers in order; the first container holding an
env var of this name decides — differing value is overwritten in place
(`Updated`), equal value is left (`NotUpdated`); no occurrence anywhere gives
`NoEnvVarFound`.  The returned list is the containers after the write. -/
def updateEnvVar (containers : List Container) (envVar shaData : String) :
    Result × List Container :=
  match containers with
  | [] => (Result.NoEnvVarFound, [])
  | c :: rest =>
      match c.env.find? (fun e => e.name == envVar) with
      | some e =>
          if e.value != shaData then
            (Result.Updated, { c with env := setFirstEnv c.env envVar shaData } :: rest)
          else (Result.NotUpdated, c :: rest)
      | none =>
          let r := updateEnvVar rest envVar shaData
          (r.1, c :: r.2)

/-- The value of the first occurrence of an env var across the containers, in
the scan order of `updateEnvVar`. -/
def firstEnvValue (containers : List Container) (envVar : String) : Option String :=
  match containers with
  | [] => none
  | c :: rest =>
      match c.env.find? (fun e => e.name == envVar) with
      | some e => some e.value
      | none => firstEnvValue rest envVar

/-- Go `container.Env = append(container.Env, e)` through the resolver's
pointer: append a plain env var to container `i`. -/
def appendEnvAt (containers : List Container) (i : Nat) (envVar shaData : String) :
    List Container :=
  match containers, i with
  | [], _ => []
  | c :: rest, 0 => { c with env := c.env ++ [{ name := envVar, value := shaData }] } :: rest
  | c :: rest, j + 1 => c :: appendEnvAt rest j envVar shaData

/-- `updateContainerEnvVars`: resolve the consuming container, overwrite or
append the hash-valued env var.  `none` stands for the Go index-out-of-range
panic surfaced by the resolver (see `Resolved.oob`). -/
def updateContainerEnvVars (item : Item) (config : Config) (autoReload : Bool) :
    Option (Result × Item) :=
  let envVar := getEnvVarName config.resourceName config.kindName
  match getContainerUsingResource item config autoReload with
  | Resolved.oob => none
  | Resolved.missing => some (Result.NoContainerFound, item)
  | Resolved.found i =>
      let r := updateEnvVar item.containers envVar config.shaValue
      if r.1 = Result.NoEnvVarFound then
        some (Result.Updated, { item with containers := appendEnvAt r.2 i envVar config.shaValue })
      else some (r.1, { item with containers := r.2 })

/-- The env-var reload strategy as an `invokeStrategy` value; on the
out-of-range panic (never reached for items with a regular container) it
leaves the item as is. -/
def envVarStrategy (item : Item) (config : Config) (autoReload : Bool) : Result × Item :=
  match updateContainerEnvVars item config autoReload with
  | some r => r
  | none => (Result.NotUpdated, item)

/-! ## The trigger evaluator and the delayed-upgrade coalescer -/

/-- An `invokeStrategy` value: it may mutate the item and reports a result. -/
abbrev Strategy := Item → Config → Bool → Result × Item

/-- Which rule of `PerformActionOnSingleItem` invoked the strategy. -/
inductive Branch where
  | auto
  | manual
  | search
  deriving Repr, DecidableEq

/-- One recorded strategy invocation: the config's resource name, the rule
that fired, and the `autoReload` flag passed. -/
structure StratCall where
  res : String
  branch : Branch
  autoReload : Bool
  deriving Repr, DecidableEq

/-- The `DelayedUpgrade` registry record (the fields the control flow reads;
the captured clients, funcs, collectors, recorder and strategy are the
parameters of the surrounding functions). -/
structure DelayedBatch where
  itemID : String
  nsName : String
  configs : List (String × Config)
  updating : Bool
  deriving Repr, DecidableEq

/-- The process-wide `DelayedUpgrades` map. -/
abbrev Registry := List (String × DelayedBatch)

/-- Go map read on the registry. -/
def lookupReg (reg : Registry) (k : String) : Option DelayedBatch :=
  (reg.find? (fun p => p.1 == k)).map (fun p => p.2)

/-- Go map write on the registry: replace the entry for the key or add one. -/
def insertReg (reg : Registry) (k : String) (b : DelayedBatch) : Registry :=
  match reg with
  | [] => [(k, b)]
  | p :: rest => if p.1 == k then (k, b) :: rest else p :: insertReg rest k b

/-- Go `delete` on the registry. -/
def eraseReg (reg : Registry) (k : String) : Registry :=
  reg.filter (fun p => p.1 != k)

/-- Go map read on a batch's `configs` map. -/
def lookupCfg (cfgs : List (String × Config)) (k : String) : Option Config :=
  (cfgs.find? (fun p => p.1 == k)).map (fun p => p.2)

/-- The annotation values `PerformActionOnSingleItem` evaluates: manual,
search, generic auto and typed auto, re-read from the pod-template
annotations when none of the four keys is present on the workload. -/
def effectiveValues (item : Item) (config : Config) : String × String × String × String :=
  let a := getAnnVal item.anns config.reloadKey
  let s := getAnnVal item.anns autoSearchKey
  let r := getAnnVal item.anns reloaderAutoKey
  let t := getAnnVal item.anns config.typedAutoKey
  if !a.2 && !r.2 && !t.2 && !s.2 then
    ((getAnnVal item.podAnns config.reloadKey).1,
     (getAnnVal item.podAnns autoSearchKey).1,
     (getAnnVal item.podAnns reloaderAutoKey).1,
     (getAnnVal item.podAnns config.typedAutoKey).1)
  else (a.1, s.1, r.1, t.1)

/-- The exclusion switch of `PerformActionOnSingleItem`: the kind-specific
exclude annotation is read from the workload annotations only. -/
def isExcluded (item : Item) (config : Config) : Bool :=
  let cm := getAnnVal item.anns cmExcludeKey
  let sec := getAnnVal item.anns secretExcludeKey
  if config.kindName == configmapKind then
    cm.2 && checkIfResourceIsExcluded config.resourceName cm.1
  else if config.kindName == secretKind then
    sec.2 && checkIfResourceIsExcluded config.resourceName sec.1
  else false

/-- Go builds the pattern `"^" ++ token ++ "$"` and tests it against the
resource name with `regexp.Match`.  Modelled for tokens free of regex
metacharacters, for which the anchored pattern matches exactly the strings
equal to the token itself. -/
def anchoredRegexMatch (token resourceName : String) : Bool :=
  token == resourceName

/-- The token loop of the manual-annotation rule: trim each token, test the
anchored pattern, invoke the strategy with `autoReload=false` on a match and
break on the first `Updated`. -/
def manualMatchLoop (strategy : Strategy) (config : Config) (tokens : List String)
    (result : Result) (item : Item) (calls : List StratCall) :
    Result × Item × List StratCall :=
  match tokens with
  | [] => (result, item, calls)
  | v :: rest =>
      let value := goTrimSpace v
      if anchoredRegexMatch value config.resourceName then
        let s := strategy item config false
        let calls := calls ++ [⟨config.resourceName, Branch.manual, false⟩]
        if s.1 = Result.Updated then (s.1, s.2, calls)
        else manualMatchLoop strategy config rest s.1 s.2 calls
      else manualMatchLoop strategy config rest result item calls

/-- The mutable state of the per-config loop of `PerformActionOnSingleItem`:
the registry, the live item, `atLeastOneUpdate`, `lastUpdatedConfig`, the
strategy invocations made, and how many delayed-batch timers were started. -/
structure LoopState where
  reg : Registry
  item : Item
  atLeastOneUpdate : Bool
  lastConfig : Option Config
  calls : List StratCall
  timersStarted : Nat
  deriving Repr, DecidableEq

/-- Lines 305-341 of `PerformActionOnSingleItem`: the auto-reload rule, the
manual-annotation rule and the search rule, in order, short-circuiting on
`Updated`, folding the outcome into `atLeastOneUpdate`. -/
def evalReloadRules (strategy : Strategy) (autoReloadAll : Bool) (st : LoopState)
    (config : Config) : LoopState :=
  let ev := effectiveValues st.item config
  let annValue := ev.1
  let searchValue := ev.2.1
  let reloaderEnabledValue := ev.2.2.1
  let typedAutoValue := ev.2.2.2
  let step1 : Result × Item × List StratCall :=
    if parseBool reloaderEnabledValue || parseBool typedAutoValue ||
        (reloaderEnabledValue == "" && typedAutoValue == "" && autoReloadAll) then
      let s := strategy st.item config true
      (s.1, s.2, st.calls ++ [⟨config.resourceName, Branch.auto, true⟩])
    else (Result.NotUpdated, st.item, st.calls)
  let step2 : Result × Item × List StratCall :=
    if step1.1 ≠ Result.Updated ∧ annValue ≠ "" then
      manualMatchLoop strategy config (goSplitOnComma annValue) step1.1 step1.2.1 step1.2.2
    else step1
  let step3 : Result × Item × List StratCall :=
    if step2.1 ≠ Result.Updated ∧ searchValue = "true" ∧
        (lookupAnn config.resourceAnns searchMatchKey).getD "" = "true" then
      let s := strategy step2.2.1 config true
      (s.1, s.2, step2.2.2 ++ [⟨config.resourceName, Branch.search, true⟩])
    else step2
  { st with
    item := step3.2.1
    calls := step3.2.2
    atLeastOneUpdate := st.atLeastOneUpdate || step3.1 = Result.Updated }

/-- The body of the config loop of `PerformActionOnSingleItem`: record
`lastUpdatedConfig`, skip excluded resources, route delayed-annotated items
through the `DelayedUpgrades` registry (create a batch and start its timer,
merge a new resource name, drop a duplicate name, or fall through to
immediate evaluation while the batch is updating), else evaluate the reload
rules. -/
def processOneConfig (strategy : Strategy) (autoReloadAll : Bool) (st : LoopState)
    (config : Config) : LoopState :=
  let st := { st with lastConfig := some config }
  if isExcluded st.item config then st
  else if (getAnnVal st.item.anns delayedUpgradeKey).2 then
    match lookupReg st.reg st.item.name with
    | some b =>
        if b.updating then
          evalReloadRules strategy autoReloadAll st config
        else if (lookupCfg b.configs config.resourceName).isSome then st
        else
          { st with
            reg := insertReg st.reg st.item.name
              { b with configs := b.configs ++ [(config.resourceName, config)] } }
    | none =>
        { st with
          reg := insertReg st.reg st.item.name
            { itemID := st.item.name
              nsName := config.nsName
              configs := [(config.resourceName, config)]
              updating := false }
          timersStarted := st.timersStarted + 1 }
  else evalReloadRules strategy autoReloadAll st config

/-- What one call of `PerformActionOnSingleItem` did: the final registry,
item, call log and timer count, how many times the adapter's `UpdateFunc`
ran, and whether the call returned an error. -/
structure ActionOut where
  reg : Registry
  item : Item
  calls : List StratCall
  timersStarted : Nat
  updateCalls : Nat
  errored : Bool
  lastConfig : Option Config
  deriving Repr, DecidableEq

/-- `PerformActionOnSingleItem`: fold the config loop, then call the
adapter's `UpdateFunc` once iff `atLeastOneUpdate` ended `Updated`
(`updateSucceeds` is that call's outcome; on failure the function returns
the error). -/
def performActionOnSingleItem (strategy : Strategy) (autoReloadAll updateSucceeds : Bool)
    (reg : Registry) (item : Item) (configs : List Config) : ActionOut :=
  let st := configs.foldl (processOneConfig strategy autoReloadAll)
    { reg := reg, item := item, atLeastOneUpdate := false, lastConfig := none,
      calls := [], timersStarted := 0 }
  if st.atLeastOneUpdate then
    { reg := st.reg, item := st.item, calls := st.calls, timersStarted := st.timersStarted,
      updateCalls := 1, errored := !updateSucceeds, lastConfig := st.lastConfig }
  else
    { reg := st.reg, item := st.item, calls := st.calls, timersStarted := st.timersStarted,
      updateCalls := 0, errored := false, lastConfig := st.lastConfig }

/-- What `PerformDelayedUpgrade` did when its timer fired. -/
inductive FlushOut where
  /-- No batch was registered for the id: log an error, touch nothing. -/
  | missing (reg : Registry)
  /-- A batch exists but no listed item carries the id: the Go code passes a
  nil item on to the evaluator, which is outside this model. -/
  | nilItem
  /-- The batch was flushed: the snapshot of its pending configs, the
  evaluation's outcome, and the registry after the unconditional delete. -/
  | flushed (snapshot : List Config) (eval : ActionOut) (reg : Registry)
  deriving Repr, DecidableEq

/-- `PerformDelayedUpgrade`: look the batch up, re-resolve the live item by
name from the freshly listed items, snapshot the pending configs, mark the
batch updating, evaluate the whole batch through
`PerformActionOnSingleItem`, and delete the registry entry whether or not
that returned an error. -/
def performDelayedUpgrade (strategy : Strategy) (autoReloadAll updateSucceeds : Bool)
    (items : List Item) (itemId : String) (reg : Registry) : FlushOut :=
  match lookupReg reg itemId with
  | none => FlushOut.missing reg
  | some b =>
      match items.find? (fun i => i.name == itemId) with
      | none => FlushOut.nilItem
      | some item =>
          let snapshot := b.configs.map (fun p => p.2)
          let reg1 := insertReg reg itemId { b with updating := true }
          let out := performActionOnSingleItem strategy autoReloadAll updateSucceeds
            reg1 item snapshot
          FlushOut.flushed snapshot out (eraseReg out.reg itemId)

/-- The coalescing scenario of the spec: two change events delivered for the
same delayed-annotated item while its batch is pending, then the single
timer fires. -/
def coalesceTwoThenFlush (strategy : Strategy) (autoReloadAll updateSucceeds : Bool)
    (item : Item) (c1 c2 : Config) : ActionOut × ActionOut × FlushOut :=
  let o1 := performActionOnSingleItem strategy autoReloadAll updateSucceeds [] item [c1]
  let o2 := performActionOnSingleItem strategy autoReloadAll updateSucceeds o1.reg item [c2]
  (o1, o2, performDelayedUpgrade strategy autoReloadAll updateSucceeds [item] item.name o2.reg)

/-- A strategy call made by the auto-reload rule: `Branch.auto` with the
`autoReload` flag set. -/
def isAutoCall (sc : StratCall) : Bool :=
  (match sc.branch with
    | Branch.auto => true
    | _ => false) && sc.autoReload

/-! ## Concrete fixtures used by witnesses and counterexamples -/

/-- A strategy that reports `Updated` and leaves the item untouched. -/
def constUpdStrategy : Strategy := fun it _ _ => (Result.Updated, it)

/-- A delayed-annotated, auto-reload-annotated workload whose container
consumes the ConfigMap `cm1` through `envFrom`. -/
def webItem : Item :=
  { name := "web",
    anns := [(delayedUpgradeKey, "true"), (reloaderAutoKey, "true")],
    containers := [{ name := "app", envFrom := [{ configMapRef := some "cm1" }] }] }

/-- A change to ConfigMap `cm1` with content hash `h1`. -/
def cmConfig : Config :=
  { resourceName := "cm1", nsName := "ns", kindName := configmapKind,
    reloadKey := "configmap.reloader.stakater.com/reload",
    typedAutoKey := "configmap.reloader.stakater.com/auto", shaValue := "h1" }

/-- A later change to the same ConfigMap `cm1`, content hash `h2`. -/
def cmConfigLater : Config := { cmConfig with shaValue := "h2" }

/-- A change to a second ConfigMap `cm2`. -/
def cm2Config : Config := { cmConfig with resourceName := "cm2", shaValue := "h2" }

/-- A pending delayed batch for `webItem` holding the `cm1` change. -/
def pendingBatch : DelayedBatch :=
  { itemID := "web", nsName := "ns", configs := [("cm1", cmConfig)], updating := false }

/-- The same batch while its flush is running (`updating` set). -/
def firingBatch : DelayedBatch := { pendingBatch with updating := true }

/-- A workload whose only container already carries the reloader env var for
`cm1` at hash `h1`. -/
def preloadedItem : Item :=
  { name := "pre",
    containers := [{ name := "app",
                     env := [{ name := "STAKATER_CM1_CONFIGMAP", value := "h1" }] }] }

/-- A workload with one regular container that does not reference `cm1`. -/
def plainItem : Item := { name := "plain", containers := [{ name := "app" }] }

/-- A workload with no regular containers at all. -/
def zeroRegularItem : Item := { name := "zero" }

/-- No regular containers, but an init container referencing `cm1` via
`envFrom`. -/
def initConsumerItem : Item :=
  { name := "init-only",
    initContainers := [{ name := "ic", envFrom := [{ configMapRef := some "cm1" }] }] }

/-- No regular containers, but an init container mounting the volume that
projects `cm1`. -/
def initMountItem : Item :=
  { name := "init-mount",
    initContainers := [{ name := "ic", volumeMounts := [{ name := "vol1" }] }],
    volumes := [{ name := "vol1", configMap := some "cm1" }] }

/-- A workload carrying both the ConfigMap exclude list naming `cm1` and the
generic auto-reload annotation. -/
def excludeItem : Item :=
  { name := "ex",
    anns := [(cmExcludeKey, " cm1 ,other"), (reloaderAutoKey, "true")],
    containers := [{ name := "app", envFrom := [{ configMapRef := some "cm1" }] }] }

/-- An auto-reload-annotated workload without the delayed annotation. -/
def autoItem : Item :=
  { name := "auto",
    anns := [(reloaderAutoKey, "true")],
    containers := [{ name := "app", envFrom := [{ configMapRef := some "cm1" }] }] }

/-- A change whose resource name is `foo`, for the regex-anchor checks. -/
def fooConfig : Config := { cmConfig with resourceName := "foo" }

/-- A change whose resource name is `foobar`. -/
def foobarConfig : Config := { cmConfig with resourceName := "foobar" }

/-- A change whose resource name is `xfoo`. -/
def xfooConfig : Config := { cmConfig with resourceName := "xfoo" }

/-! ## Helper lemmas -/

theorem lookupReg_insertReg_self (reg : Registry) (k : String) (b : DelayedBatch) :
    lookupReg (insertReg reg k b) k = some b := by
  induction reg with
  | nil => simp [insertReg, lookupReg]
  | cons p rest ih =>
      by_cases h : p.1 = k
      · simp [insertReg, lookupReg, h]
      · have hb : (p.1 == k) = false := beq_eq_false_iff_ne.mpr h
        simp only [insertReg, hb, Bool.false_eq_true, if_false]
        simpa [lookupReg, List.find?, hb] using ih

theorem lookupReg_eraseReg_self (reg : Registry) (k : String) :
    lookupReg (eraseReg reg k) k = none := by
  induction reg with
  | nil => rfl
  | cons p rest ih =>
      by_cases h : p.1 = k
      · have hb : (p.1 != k) = false := by simp [bne, h]
        have hdrop : eraseReg (p :: rest) k = eraseReg rest k := by
          simp [eraseReg, List.filter, hb]
        rw [hdrop]; exact ih
      · have hb : (p.1 == k) = false := beq_eq_false_iff_ne.mpr h
        have hbn : (p.1 != k) = true := by simp [bne, hb]
        have hkeep : eraseReg (p :: rest) k = p :: eraseReg rest k := by
          simp [eraseReg, List.filter, hbn]
        have hskip : lookupReg (p :: eraseReg rest k) k = lookupReg (eraseReg rest k) k := by
          simp [lookupReg, List.find?, hb]
        rw [hkeep, hskip]; exact ih

theorem findIdxOpt_eq_none {α : Type} (p : α → Bool) (l : List α)
    (h : ∀ a ∈ l, p a = false) : findIdxOpt p l = none := by
  induction l with
  | nil => rfl
  | cons a t ih =>
      have ha := h a (List.mem_cons_self a t)
      simp [findIdxOpt, ha, ih fun x hx => h x (List.mem_cons_of_mem a hx)]

theorem findIdxOpt_lt_length {α : Type} (p : α → Bool) (l : List α) (i : Nat)
    (h : findIdxOpt p l = some i) : i < l.length := by
  induction l generalizing i with
  | nil => simp [findIdxOpt] at h
  | cons a t ih =>
      have hlen : (a :: t).length = t.length + 1 := rfl
      by_cases hp : p a = true
      · simp [findIdxOpt, hp] at h
        omega
      · simp only [findIdxOpt, hp, Bool.false_eq_true, if_false] at h
        cases hf : findIdxOpt p t with
        | none => rw [hf] at h; simp at h
        | some j =>
            rw [hf] at h
            simp at h
            have := ih j hf
            omega

theorem findIdxOpt_congr {α : Type} (p : α → Bool) (l l' : List α)
    (h : l.map p = l'.map p) : findIdxOpt p l = findIdxOpt p l' := by
  induction l generalizing l' with
  | nil =>
      cases l' with
      | nil => rfl
      | cons b t' => simp at h
  | cons a t ih =>
      cases l' with
      | nil => simp at h
      | cons b t' =>
          simp only [List.map_cons, List.cons.injEq] at h
          simp only [findIdxOpt]
          rw [h.1, ih t' h.2]

theorem firstContainerOrOob_congr (l l' : List Container) (h : l.length = l'.length) :
    firstContainerOrOob l = firstContainerOrOob l' := by
  cases l <;> cases l' <;> simp_all [firstContainerOrOob]

theorem firstContainerOrOob_found (l : List Container) (i : Nat)
    (h : firstContainerOrOob l = Resolved.found i) : i < l.length := by
  cases l with
  | nil => simp [firstContainerOrOob] at h
  | cons a t =>
      simp only [firstContainerOrOob, Resolved.found.injEq] at h
      simp [← h]

theorem evalReloadRules_reg (strategy : Strategy) (autoReloadAll : Bool) (st : LoopState)
    (config : Config) : (evalReloadRules strategy autoReloadAll st config).reg = st.reg := by
  simp [evalReloadRules]

theorem evalReloadRules_timers (strategy : Strategy) (autoReloadAll : Bool) (st : LoopState)
    (config : Config) :
    (evalReloadRules strategy autoReloadAll st config).timersStarted = st.timersStarted := by
  simp [evalReloadRules]

theorem manualMatchLoop_all (strategy : Strategy) (config : Config) (tokens : List String)
    (result : Result) (item : Item) (calls : List StratCall) (q : StratCall → Bool)
    (hq : q ⟨config.resourceName, Branch.manual, false⟩ = true)
    (h : calls.all q = true) :
    ((manualMatchLoop strategy config tokens result item calls).2.2).all q = true := by
  induction tokens generalizing result item calls with
  | nil => simpa [manualMatchLoop] using h
  | cons v rest ih =>
      by_cases hm : anchoredRegexMatch (goTrimSpace v) config.resourceName = true
      · by_cases hr : (strategy item config false).1 = Result.Updated
        · simp [manualMatchLoop, hm, hr, List.all_append, h, hq]
        · simp only [manualMatchLoop, hm, if_true]
          rw [if_neg hr]
          exact ih _ _ _ (by simp [List.all_append, h, hq])
      · simp only [manualMatchLoop, hm, Bool.false_eq_true, if_false]
        exact ih _ _ _ h

theorem manualMatchLoop_any (strategy : Strategy) (config : Config) (tokens : List String)
    (result : Result) (item : Item) (calls : List StratCall) (q : StratCall → Bool)
    (hq : q ⟨config.resourceName, Branch.manual, false⟩ = false) :
    ((manualMatchLoop strategy config tokens result item calls).2.2).any q = calls.any q := by
  induction tokens generalizing result item calls with
  | nil => simp [manualMatchLoop]
  | cons v rest ih =>
      by_cases hm : anchoredRegexMatch (goTrimSpace v) config.resourceName = true
      · by_cases hr : (strategy item config false).1 = Result.Updated
        · simp [manualMatchLoop, hm, hr, List.any_append, hq]
        · simp only [manualMatchLoop, hm, if_true]
          rw [if_neg hr, ih]
          simp [List.any_append, hq]
      · simp only [manualMatchLoop, hm, Bool.false_eq_true, if_false]
        exact ih _ _ _

theorem evalReloadRules_auto_any (strategy : Strategy) (autoReloadAll : Bool)
    (st : LoopState) (config : Config) :
    ((evalReloadRules strategy autoReloadAll st config).calls).any isAutoCall
      = (st.calls.any isAutoCall ||
         (parseBool (effectiveValues st.item config).2.2.1
          || parseBool (effectiveValues st.item config).2.2.2
          || ((effectiveValues st.item config).2.2.1 == ""
              && (effectiveValues st.item config).2.2.2 == "" && autoReloadAll))) := by
  have hman : isAutoCall ⟨config.resourceName, Branch.manual, false⟩ = false := rfl
  have hser : isAutoCall ⟨config.resourceName, Branch.search, true⟩ = false := rfl
  have haut : isAutoCall ⟨config.resourceName, Branch.auto, true⟩ = true := rfl
  simp only [evalReloadRules]
  set cond := (parseBool (effectiveValues st.item config).2.2.1
          || parseBool (effectiveValues st.item config).2.2.2
          || ((effectiveValues st.item config).2.2.1 == ""
              && (effectiveValues st.item config).2.2.2 == "" && autoReloadAll)) with hcond
  cases hc : cond with
  | true =>
      rw [hcond] at hc
      simp only [hc, if_true]
      split
      · split
        · simp [manualMatchLoop_any, hman, List.any_append, haut]
        · simp [manualMatchLoop_any, hman, List.any_append, haut, hser]
      · split
        · simp [List.any_append, haut, hser]
        · simp [List.any_append, haut]
  | false =>
      rw [hcond] at hc
      simp only [hc, Bool.false_eq_true, if_false]
      split
      · split
        · simp [manualMatchLoop_any, hman, List.any_append, hser]
        · simp [manualMatchLoop_any, hman]
      · split
        · simp [List.any_append, hser]
        · simp

theorem envRefMatches_set_value (rn k : String) (e : EnvVar) (s : String) :
    envRefMatches rn k { e with value := s } = envRefMatches rn k e := rfl

theorem setFirstEnv_any_envRef (env : List EnvVar) (v s rn k : String) :
    (setFirstEnv env v s).any (envRefMatches rn k) = env.any (envRefMatches rn k) := by
  induction env with
  | nil => rfl
  | cons e rest ih =>
      by_cases he : e.name = v
      · have hb : (e.name == v) = true := beq_iff_eq.mpr he
        simp only [setFirstEnv, hb, if_true, List.any_cons, envRefMatches_set_value]
      · have hb : (e.name == v) = false := beq_eq_false_iff_ne.mpr he
        simp [setFirstEnv, hb, ih]

theorem setFirstEnv_find? (env : List EnvVar) (v s : String) (e : EnvVar)
    (h : env.find? (fun x => x.name == v) = some e) :
    (setFirstEnv env v s).find? (fun x => x.name == v) = some { e with value := s } := by
  induction env with
  | nil => simp at h
  | cons a rest ih =>
      by_cases ha : a.name = v
      · have hb : (a.name == v) = true := beq_iff_eq.mpr ha
        simp only [List.find?, hb] at h
        cases h
        simp [setFirstEnv, hb, List.find?]
      · have hb : (a.name == v) = false := beq_eq_false_iff_ne.mpr ha
        simp only [List.find?, hb] at h
        simp only [setFirstEnv, hb, Bool.false_eq_true, if_false, List.find?]
        exact ih h

theorem containerHasEnvReference_env_set (rn k : String) (c : Container) (v s : String) :
    containerHasEnvReference rn k { c with env := setFirstEnv c.env v s }
      = containerHasEnvReference rn k c := by
  simp [containerHasEnvReference, setFirstEnv_any_envRef]

theorem containerHasEnvReference_env_append_plain (rn k : String) (c : Container)
    (v s : String) :
    containerHasEnvReference rn k
        { c with env := c.env ++ [{ name := v, value := s }] }
      = containerHasEnvReference rn k c := by
  simp [containerHasEnvReference, List.any_append, envRefMatches]

theorem updateEnvVar_length (cs : List Container) (v s : String) :
    ((updateEnvVar cs v s).2).length = cs.length := by
  induction cs with
  | nil => rfl
  | cons c rest ih =>
      cases hf : c.env.find? (fun e => e.name == v) with
      | some e =>
          by_cases hv : e.value ≠ s
          · simp [updateEnvVar, hf, hv]
          · simp [updateEnvVar, hf, hv]
      | none => simp [updateEnvVar, hf, ih]

theorem updateEnvVar_map_vm (cs : List Container) (v s n : String) :
    ((updateEnvVar cs v s).2).map (containerHasVolumeMount n)
      = cs.map (containerHasVolumeMount n) := by
  induction cs with
  | nil => rfl
  | cons c rest ih =>
      cases hf : c.env.find? (fun e => e.name == v) with
      | some e =>
          by_cases hv : e.value ≠ s
          · simp [updateEnvVar, hf, hv, containerHasVolumeMount]
          · simp [updateEnvVar, hf, hv]
      | none => simp [updateEnvVar, hf, ih]

theorem updateEnvVar_map_er (cs : List Container) (v s rn k : String) :
    ((updateEnvVar cs v s).2).map (containerHasEnvReference rn k)
      = cs.map (containerHasEnvReference rn k) := by
  induction cs with
  | nil => rfl
  | cons c rest ih =>
      cases hf : c.env.find? (fun e => e.name == v) with
      | some e =>
          by_cases hv : e.value ≠ s
          · simp [updateEnvVar, hf, hv, containerHasEnvReference_env_set]
          · simp [updateEnvVar, hf, hv]
      | none => simp [updateEnvVar, hf, ih]

theorem appendEnvAt_length (cs : List Container) (i : Nat) (v s : String) :
    (appendEnvAt cs i v s).length = cs.length := by
  induction cs generalizing i with
  | nil => rfl
  | cons c rest ih =>
      cases i with
      | zero => simp [appendEnvAt]
      | succ j => simp [appendEnvAt, ih]

theorem appendEnvAt_map_vm (cs : List Container) (i : Nat) (v s n : String) :
    (appendEnvAt cs i v s).map (containerHasVolumeMount n)
      = cs.map (containerHasVolumeMount n) := by
  induction cs generalizing i with
  | nil => rfl
  | cons c rest ih =>
      cases i with
      | zero => simp [appendEnvAt, containerHasVolumeMount]
      | succ j => simp [appendEnvAt, ih]

theorem appendEnvAt_map_er (cs : List Container) (i : Nat) (v s rn k : String) :
    (appendEnvAt cs i v s).map (containerHasEnvReference rn k)
      = cs.map (containerHasEnvReference rn k) := by
  induction cs generalizing i with
  | nil => rfl
  | cons c rest ih =>
      cases i with
      | zero => simp [appendEnvAt, containerHasEnvReference_env_append_plain]
      | succ j => simp [appendEnvAt, ih]

theorem updateEnvVar_of_none (cs : List Container) (v s : String)
    (h : firstEnvValue cs v = none) :
    updateEnvVar cs v s = (Result.NoEnvVarFound, cs) := by
  induction cs with
  | nil => rfl
  | cons c rest ih =>
      cases hf : c.env.find? (fun e => e.name == v) with
      | some e => simp [firstEnvValue, hf] at h
      | none =>
          simp only [firstEnvValue, hf] at h
          simp [updateEnvVar, hf, ih h]

theorem updateEnvVar_of_same (cs : List Container) (v s : String)
    (h : firstEnvValue cs v = some s) :
    updateEnvVar cs v s = (Result.NotUpdated, cs) := by
  induction cs with
  | nil => simp [firstEnvValue] at h
  | cons c rest ih =>
      cases hf : c.env.find? (fun e => e.name == v) with
      | some e =>
          simp only [firstEnvValue, hf, Option.some.injEq] at h
          simp [updateEnvVar, hf, h]
      | none =>
          simp only [firstEnvValue, hf] at h
          simp [updateEnvVar, hf, ih h]

theorem updateEnvVar_of_diff (cs : List Container) (v s w : String)
    (h : firstEnvValue cs v = some w) (hne : w ≠ s) :
    (updateEnvVar cs v s).1 = Result.Updated ∧
      firstEnvValue (updateEnvVar cs v s).2 v = some s := by
  induction cs with
  | nil => simp [firstEnvValue] at h
  | cons c rest ih =>
      cases hf : c.env.find? (fun e => e.name == v) with
      | some e =>
          simp only [firstEnvValue, hf, Option.some.injEq] at h
          have hv : e.value ≠ s := h ▸ hne
          have hstep : updateEnvVar (c :: rest) v s
              = (Result.Updated, { c with env := setFirstEnv c.env v s } :: rest) := by
            simp [updateEnvVar, hf, hv]
          rw [hstep]
          exact ⟨rfl, by simp [firstEnvValue, setFirstEnv_find? c.env v s e hf]⟩
      | none =>
          simp only [firstEnvValue, hf] at h
          have := ih h
          simp [updateEnvVar, hf, firstEnvValue, this.1, this.2]

theorem firstEnvValue_appendEnvAt (cs : List Container) (i : Nat) (v s : String)
    (h : firstEnvValue cs v = none) (hi : i < cs.length) :
    firstEnvValue (appendEnvAt cs i v s) v = some s := by
  induction cs generalizing i with
  | nil => simp at hi
  | cons c rest ih =>
      cases hf : c.env.find? (fun e => e.name == v) with
      | some e => simp [firstEnvValue, hf] at h
      | none =>
          simp only [firstEnvValue, hf] at h
          cases i with
          | zero =>
              have hfind : (c.env ++ [({ name := v, value := s } : EnvVar)]).find?
                  (fun e => e.name == v) = some ({ name := v, value := s } : EnvVar) := by
                rw [List.find?_append, hf]
                simp [List.find?]
              simp [appendEnvAt, firstEnvValue, hfind]
          | succ j =>
              have hj : j < rest.length := by
                have hc : (c :: rest).length = rest.length + 1 := rfl
                omega
              simp [appendEnvAt, firstEnvValue, hf, ih j h hj]

theorem getContainerUsingResource_congr (item item' : Item) (config : Config) (ar : Bool)
    (hv : item'.volumes = item.volumes)
    (hi : item'.initContainers = item.initContainers)
    (hvm : ∀ n, item'.containers.map (containerHasVolumeMount n)
        = item.containers.map (containerHasVolumeMount n))
    (her : item'.containers.map (containerHasEnvReference config.resourceName config.kindName)
        = item.containers.map (containerHasEnvReference config.resourceName config.kindName))
    (hlen : item'.containers.length = item.containers.length) :
    getContainerUsingResource item' config ar = getContainerUsingResource item config ar := by
  have h1 : ∀ n, findIdxOpt (containerHasVolumeMount n) item'.containers
      = findIdxOpt (containerHasVolumeMount n) item.containers :=
    fun n => findIdxOpt_congr _ _ _ (hvm n)
  have h2 : findIdxOpt (containerHasEnvReference config.resourceName config.kindName)
      item'.containers
      = findIdxOpt (containerHasEnvReference config.resourceName config.kindName)
        item.containers :=
    findIdxOpt_congr _ _ _ her
  have h3 : firstContainerOrOob item'.containers = firstContainerOrOob item.containers :=
    firstContainerOrOob_congr _ _ hlen
  simp only [getContainerUsingResource, hv, hi, h1, h2, h3]

theorem getContainerUsingResource_found_lt (item : Item) (config : Config) (ar : Bool)
    (i : Nat) (h : getContainerUsingResource item config ar = Resolved.found i) :
    i < item.containers.length := by
  simp only [getContainerUsingResource] at h
  set vmn := getVolumeMountName item.volumes config.kindName config.resourceName with hvmn
  have htail : ∀ (h : (match findIdxOpt (containerHasEnvReference config.resourceName
        config.kindName) item.containers with
      | some j => Resolved.found j
      | none =>
          if item.initContainers.length > 0 &&
              (findIdxOpt (containerHasEnvReference config.resourceName config.kindName)
                item.initContainers).isSome then
            firstContainerOrOob item.containers
          else if !ar then firstContainerOrOob item.containers
          else Resolved.missing) = Resolved.found i), i < item.containers.length := by
    intro h
    cases h4 : findIdxOpt (containerHasEnvReference config.resourceName config.kindName)
        item.containers with
    | some j =>
        rw [h4] at h
        simp at h
        subst h
        exact findIdxOpt_lt_length _ _ _ h4
    | none =>
        rw [h4] at h
        by_cases h5 : (item.initContainers.length > 0 &&
            (findIdxOpt (containerHasEnvReference config.resourceName config.kindName)
              item.initContainers).isSome) = true
        · rw [if_pos h5] at h
          exact firstContainerOrOob_found _ _ h
        · rw [if_neg h5] at h
          by_cases h6 : (!ar) = true
          · rw [if_pos h6] at h
            exact firstContainerOrOob_found _ _ h
          · rw [if_neg h6] at h
            cases h
  by_cases hv : (vmn != "") = true
  · rw [if_pos hv] at h
    cases h1 : findIdxOpt (containerHasVolumeMount vmn) item.containers with
    | some j =>
        rw [h1] at h
        simp at h
        subst h
        exact findIdxOpt_lt_length _ _ _ h1
    | none =>
        rw [h1] at h
        by_cases h2 : item.initContainers.length > 0
        · rw [if_pos h2] at h
          cases h3 : findIdxOpt (containerHasVolumeMount vmn) item.initContainers with
          | some j =>
              rw [h3] at h
              simp only [] at h
              exact firstContainerOrOob_found _ _ h
          | none =>
              rw [h3] at h
              exact htail h
        · rw [if_neg h2] at h
          exact htail h
  · rw [if_neg hv] at h
    exact htail h

theorem firstContainerOrOob_oob (l : List Container)
    (h : firstContainerOrOob l = Resolved.oob) : l = [] := by
  cases l with
  | nil => rfl
  | cons a t => simp [firstContainerOrOob] at h

theorem getContainerUsingResource_oob_empty (item : Item) (config : Config) (ar : Bool)
    (h : getContainerUsingResource item config ar = Resolved.oob) :
    item.containers = [] := by
  simp only [getContainerUsingResource] at h
  have htail : ∀ (h : (match findIdxOpt (containerHasEnvReference config.resourceName
        config.kindName) item.containers with
      | some j => Resolved.found j
      | none =>
          if item.initContainers.length > 0 &&
              (findIdxOpt (containerHasEnvReference config.resourceName config.kindName)
                item.initContainers).isSome then
            firstContainerOrOob item.containers
          else if !ar then firstContainerOrOob item.containers
          else Resolved.missing) = Resolved.oob), item.containers = [] := by
    intro h
    cases h4 : findIdxOpt (containerHasEnvReference config.resourceName config.kindName)
        item.containers with
    | some j =>
        rw [h4] at h
        simp at h
    | none =>
        rw [h4] at h
        by_cases h5 : (item.initContainers.length > 0 &&
            (findIdxOpt (containerHasEnvReference config.resourceName config.kindName)
              item.initContainers).isSome) = true
        · rw [if_pos h5] at h
          exact firstContainerOrOob_oob _ h
        · rw [if_neg h5] at h
          by_cases h6 : (!ar) = true
          · rw [if_pos h6] at h
            exact firstContainerOrOob_oob _ h
          · rw [if_neg h6] at h
            cases h
  by_cases hv : (getVolumeMountName item.volumes config.kindName config.resourceName != "")
      = true
  · rw [if_pos hv] at h
    cases h1 : findIdxOpt
        (containerHasVolumeMount
          (getVolumeMountName item.volumes config.kindName config.resourceName))
        item.containers with
    | some j =>
        rw [h1] at h
        simp at h
    | none =>
        rw [h1] at h
        by_cases h2 : item.initContainers.length > 0
        · rw [if_pos h2] at h
          cases h3 : findIdxOpt
              (containerHasVolumeMount
                (getVolumeMountName item.volumes config.kindName config.resourceName))
              item.initContainers with
          | some j =>
              rw [h3] at h
              simp only [] at h
              exact firstContainerOrOob_oob _ h
          | none =>
              rw [h3] at h
              exact htail h
        · rw [if_neg h2] at h
          exact htail h
  · rw [if_neg hv] at h
    exact htail h

theorem getContainerUsingResource_no_consumer (item : Item) (config : Config) (ar : Bool)
    (hvm : getVolumeMountName item.volumes config.kindName config.resourceName ≠ "" →
      ∀ c ∈ item.containers ++ item.initContainers,
        containerHasVolumeMount
          (getVolumeMountName item.volumes config.kindName config.resourceName) c = false)
    (her : ∀ c ∈ item.containers ++ item.initContainers,
        containerHasEnvReference config.resourceName config.kindName c = false) :
    getContainerUsingResource item config ar
      = (if ar then Resolved.missing else firstContainerOrOob item.containers) := by
  have herC : findIdxOpt (containerHasEnvReference config.resourceName config.kindName)
      item.containers = none :=
    findIdxOpt_eq_none _ _ fun a ha => her a (List.mem_append_left _ ha)
  have herI : findIdxOpt (containerHasEnvReference config.resourceName config.kindName)
      item.initContainers = none :=
    findIdxOpt_eq_none _ _ fun a ha => her a (List.mem_append_right _ ha)
  by_cases hv : (getVolumeMountName item.volumes config.kindName config.resourceName != "")
      = true
  · have hvm' := hvm (by simpa using hv)
    have hvmC : findIdxOpt
        (containerHasVolumeMount
          (getVolumeMountName item.volumes config.kindName config.resourceName))
        item.containers = none :=
      findIdxOpt_eq_none _ _ fun a ha => hvm' a (List.mem_append_left _ ha)
    have hvmI : findIdxOpt
        (containerHasVolumeMount
          (getVolumeMountName item.volumes config.kindName config.resourceName))
        item.initContainers = none :=
      findIdxOpt_eq_none _ _ fun a ha => hvm' a (List.mem_append_right _ ha)
    simp only [getContainerUsingResource, hv, if_true, hvmC, hvmI, herC, herI]
    cases ar <;> simp
  · simp only [getContainerUsingResource, hv, Bool.false_eq_true, if_false, herC, herI]
    cases ar <;> simp

/-! ## The claims -/

/-- C8.  For a workload none of whose regular or init containers mounts the
resource (directly or through a projected volume) or references it via env
`valueFrom`/`envFrom`, the resolver defaults to the first regular container
when `autoReload` is false (manual-annotation match) and returns no container
when `autoReload` is true, so auto-reload never fires for a workload that
does not demonstrably consume the resource. -/
theorem claim8_no_consumer_fallback (item : Item) (config : Config)
    (hne : item.containers ≠ [])
    (hvm : getVolumeMountName item.volumes config.kindName config.resourceName ≠ "" →
      ∀ c ∈ item.containers ++ item.initContainers,
        containerHasVolumeMount
          (getVolumeMountName item.volumes config.kindName config.resourceName) c = false)
    (her : ∀ c ∈ item.containers ++ item.initContainers,
        containerHasEnvReference config.resourceName config.kindName c = false) :
    getContainerUsingResource item config false = Resolved.found 0 ∧
      getContainerUsingResource item config true = Resolved.missing := by
  have h0 := getContainerUsingResource_no_consumer item config false hvm her
  have h1 := getContainerUsingResource_no_consumer item config true hvm her
  cases hc : item.containers with
  | nil => exact absurd hc hne
  | cons a t =>
      refine ⟨?_, by simpa using h1⟩
      rw [h0]
      simp [hc, firstContainerOrOob]

theorem claim8_no_consumer_fallback_witness :
    getContainerUsingResource plainItem cmConfig false = Resolved.found 0 ∧
      getContainerUsingResource plainItem cmConfig true = Resolved.missing :=
  claim8_no_consumer_fallback plainItem cmConfig (by decide)
    (fun h => by decide) (by decide)

/-- C9.  `getContainerUsingResource` takes `&containers[0]` in the
init-container fallback paths and in the manual-annotation fallback without
checking that the regular-container slice is non-empty: with zero regular
containers those paths hit the index-out-of-range panic (`Resolved.oob`),
while any item with at least one regular container never panics. -/
theorem claim9_resolver_oob :
    (∀ (item : Item) (config : Config) (ar : Bool),
        item.containers ≠ [] → getContainerUsingResource item config ar ≠ Resolved.oob)
  ∧ getContainerUsingResource initConsumerItem cmConfig true = Resolved.oob
  ∧ getContainerUsingResource initMountItem cmConfig true = Resolved.oob
  ∧ getContainerUsingResource zeroRegularItem cmConfig false = Resolved.oob := by
  refine ⟨fun item config ar hne hoob =>
    hne (getContainerUsingResource_oob_empty item config ar hoob), ?_, ?_, ?_⟩
  · decide
  · decide
  · decide

/-- C10.  Whenever a batch is registered for the id and the live item is
re-resolved, `PerformDelayedUpgrade` deletes the registry entry after the
batched evaluation, whether that evaluation succeeded or returned an error:
no pending batch survives a flush and a failed flush is not retried by the
coalescer. -/
theorem claim10_flush_always_deletes (strategy : Strategy)
    (autoReloadAll updateSucceeds : Bool) (items : List Item) (itemId : String)
    (reg : Registry) (b : DelayedBatch) (item : Item)
    (hb : lookupReg reg itemId = some b)
    (hfind : items.find? (fun i => i.name == itemId) = some item) :
    ∃ snapshot ev reg₂,
      performDelayedUpgrade strategy autoReloadAll updateSucceeds items itemId reg
        = FlushOut.flushed snapshot ev reg₂
      ∧ lookupReg reg₂ itemId = none := by
  simp only [performDelayedUpgrade, hb, hfind]
  exact ⟨_, _, _, rfl, lookupReg_eraseReg_self _ _⟩

theorem claim10_flush_always_deletes_witness :
    ∃ snapshot ev reg₂,
      performDelayedUpgrade constUpdStrategy false false [webItem] "web"
          [("web", pendingBatch)]
        = FlushOut.flushed snapshot ev reg₂
      ∧ lookupReg reg₂ "web" = none :=
  claim10_flush_always_deletes constUpdStrategy false false [webItem] "web"
    [("web", pendingBatch)] pendingBatch webItem (by decide) (by decide)

/-- C5 counterexample.  As stated the claim is false: when a container
already carries the reloader env var at the new content hash, the first
application of the env-var strategy yields `NotUpdated`, not `Updated`, even
though a consuming container is resolved. -/
theorem claim5_counterexample :
    getContainerUsingResource preloadedItem cmConfig false = Resolved.found 0
  ∧ updateContainerEnvVars preloadedItem cmConfig false
      = some (Result.NotUpdated, preloadedItem) := by
  constructor
  · decide
  · decide

/-- C5 (amended).  If a consuming container is resolved and no container's
first occurrence of the reloader env var already holds the new content hash,
applying the env-var strategy yields `Updated` and a new item, and applying
it again with the same ChangeConfig yields `NotUpdated` and returns that item
unchanged (no container's env list is touched). -/
theorem claim5_env_strategy_updated_then_not (item : Item) (config : Config)
    (ar : Bool) (i : Nat)
    (hres : getContainerUsingResource item config ar = Resolved.found i)
    (hfresh : firstEnvValue item.containers
        (getEnvVarName config.resourceName config.kindName) ≠ some config.shaValue) :
    ∃ item', updateContainerEnvVars item config ar = some (Result.Updated, item')
      ∧ updateContainerEnvVars item' config ar = some (Result.NotUpdated, item') := by
  cases hfv : firstEnvValue item.containers
      (getEnvVarName config.resourceName config.kindName) with
  | none =>
      have hup := updateEnvVar_of_none item.containers
        (getEnvVarName config.resourceName config.kindName) config.shaValue hfv
      have hi : i < item.containers.length :=
        getContainerUsingResource_found_lt item config ar i hres
      refine ⟨{ item with containers := appendEnvAt item.containers i (getEnvVarName config.resourceName config.kindName) config.shaValue }, ?_, ?_⟩
      · simp [updateContainerEnvVars, hres, hup]
      · have hres' : getContainerUsingResource
            { item with containers := appendEnvAt item.containers i (getEnvVarName config.resourceName config.kindName) config.shaValue }
            config ar = Resolved.found i := by
          rw [← hres]
          apply getContainerUsingResource_congr
          · rfl
          · rfl
          · exact fun n => appendEnvAt_map_vm _ _ _ _ _
          · exact appendEnvAt_map_er _ _ _ _ _ _
          · exact appendEnvAt_length _ _ _ _
        have hfv' : firstEnvValue (appendEnvAt item.containers i
            (getEnvVarName config.resourceName config.kindName) config.shaValue)
            (getEnvVarName config.resourceName config.kindName) = some config.shaValue :=
          firstEnvValue_appendEnvAt _ _ _ _ hfv hi
        have hup' := updateEnvVar_of_same (appendEnvAt item.containers i
            (getEnvVarName config.resourceName config.kindName) config.shaValue)
          (getEnvVarName config.resourceName config.kindName) config.shaValue hfv'
        simp [updateContainerEnvVars, hres', hup']
  | some w =>
      have hw : w ≠ config.shaValue := fun hcontra => hfresh (by rw [hfv, hcontra])
      obtain ⟨h1, h2⟩ := updateEnvVar_of_diff item.containers
        (getEnvVarName config.resourceName config.kindName) config.shaValue w hfv hw
      refine ⟨{ item with containers := (updateEnvVar item.containers (getEnvVarName config.resourceName config.kindName) config.shaValue).2 }, ?_, ?_⟩
      · simp [updateContainerEnvVars, hres, h1]
      · have hres' : getContainerUsingResource
            { item with containers := (updateEnvVar item.containers (getEnvVarName config.resourceName config.kindName) config.shaValue).2 }
            config ar = Resolved.found i := by
          rw [← hres]
          apply getContainerUsingResource_congr
          · rfl
          · rfl
          · exact fun n => updateEnvVar_map_vm _ _ _ _
          · exact updateEnvVar_map_er _ _ _ _ _
          · exact updateEnvVar_length _ _ _
        have hup' := updateEnvVar_of_same ((updateEnvVar item.containers
            (getEnvVarName config.resourceName config.kindName) config.shaValue).2)
          (getEnvVarName config.resourceName config.kindName) config.shaValue h2
        simp [updateContainerEnvVars, hres', hup']

theorem claim5_env_strategy_updated_then_not_witness :
    ∃ item', updateContainerEnvVars plainItem cmConfig false
        = some (Result.Updated, item')
      ∧ updateContainerEnvVars item' cmConfig false = some (Result.NotUpdated, item') :=
  claim5_env_strategy_updated_then_not plainItem cmConfig false 0 (by decide) (by decide)

/-- C2 counterexample.  As stated the claim is false: a second change to the
same ConfigMap while the batch is pending is dropped, so the batch keeps the
earlier change (hash `h1`), not the later one (hash `h2`). -/
theorem claim2_counterexample :
    (processOneConfig constUpdStrategy false
        ⟨[("web", pendingBatch)], webItem, false, none, [], 0⟩ cmConfigLater).reg
      = [("web", pendingBatch)]
  ∧ lookupCfg pendingBatch.configs cmConfigLater.resourceName = some cmConfig
  ∧ cmConfig.shaValue = "h1" ∧ cmConfigLater.shaValue = "h2"
  ∧ cmConfig ≠ cmConfigLater := by
  refine ⟨?_, ?_, rfl, rfl, ?_⟩
  · decide
  · decide
  · decide

/-- C2 (amended).  While a batch is Pending, a change whose resource name is
already queued is dropped with a log line only: the loop state, and with it
the registry and the batch's pending-configs map, are unchanged (apart from
`lastUpdatedConfig`), so the batch keeps the first ChangeConfig received for
that resource name rather than the latest. -/
theorem claim2_pending_batch_drops_duplicate (strategy : Strategy) (autoReloadAll : Bool)
    (st : LoopState) (config c0 : Config) (b : DelayedBatch)
    (hex : isExcluded st.item config = false)
    (hdel : (getAnnVal st.item.anns delayedUpgradeKey).2 = true)
    (hb : lookupReg st.reg st.item.name = some b)
    (hupd : b.updating = false)
    (hdup : lookupCfg b.configs config.resourceName = some c0) :
    processOneConfig strategy autoReloadAll st config
      = { st with lastConfig := some config } := by
  simp [processOneConfig, hex, hdel, hb, hupd, hdup]

theorem claim2_pending_batch_drops_duplicate_witness :
    processOneConfig constUpdStrategy false
        ⟨[("web", pendingBatch)], webItem, false, none, [], 0⟩ cmConfigLater
      = { reg := [("web", pendingBatch)], item := webItem, atLeastOneUpdate := false,
          lastConfig := some cmConfigLater, calls := [], timersStarted := 0 } :=
  claim2_pending_batch_drops_duplicate constUpdStrategy false
    ⟨[("web", pendingBatch)], webItem, false, none, [], 0⟩ cmConfigLater cmConfig
    pendingBatch (by decide) (by decide) (by decide) (by decide) (by decide)

/-- C3 counterexample.  As stated the claim is false: a change delivered
while the batch is Firing is not dropped — the delayed branch falls through
and the change is evaluated immediately, here invoking the env-var strategy
through the auto-reload rule, mutating the workload and calling the
adapter's update function once. -/
theorem claim3_counterexample :
    (performActionOnSingleItem envVarStrategy false true
        [("web", firingBatch)] webItem [cmConfig]).calls
      = [⟨"cm1", Branch.auto, true⟩]
  ∧ (performActionOnSingleItem envVarStrategy false true
        [("web", firingBatch)] webItem [cmConfig]).updateCalls = 1
  ∧ (performActionOnSingleItem envVarStrategy false true
        [("web", firingBatch)] webItem [cmConfig]).item ≠ webItem := by
  refine ⟨?_, ?_, ?_⟩
  · decide
  · decide
  · decide

/-- C3 (amended).  A change arriving while the workload's batch is Firing
(`updating` set) is not merged into the batch and starts no timer — the
delayed branch leaves the registry untouched — but it is not dropped either:
it falls through to the immediate evaluation path (the same path the flush
itself uses), which may invoke the strategy and update the workload. -/
theorem claim3_firing_falls_through (strategy : Strategy) (autoReloadAll : Bool)
    (st : LoopState) (config : Config) (b : DelayedBatch)
    (hex : isExcluded st.item config = false)
    (hdel : (getAnnVal st.item.anns delayedUpgradeKey).2 = true)
    (hb : lookupReg st.reg st.item.name = some b)
    (hupd : b.updating = true) :
    processOneConfig strategy autoReloadAll st config
      = evalReloadRules strategy autoReloadAll { st with lastConfig := some config } config
  ∧ (processOneConfig strategy autoReloadAll st config).reg = st.reg
  ∧ (processOneConfig strategy autoReloadAll st config).timersStarted
      = st.timersStarted := by
  have hmain : processOneConfig strategy autoReloadAll st config
      = evalReloadRules strategy autoReloadAll { st with lastConfig := some config } config := by
    simp [processOneConfig, hex, hdel, hb, hupd]
  refine ⟨hmain, ?_, ?_⟩
  · rw [hmain, evalReloadRules_reg]
  · rw [hmain, evalReloadRules_timers]

theorem claim3_firing_falls_through_witness :
    processOneConfig constUpdStrategy false
        ⟨[("web", firingBatch)], webItem, false, none, [], 0⟩ cmConfig
      = evalReloadRules constUpdStrategy false
          { reg := [("web", firingBatch)], item := webItem, atLeastOneUpdate := false,
            lastConfig := some cmConfig, calls := [], timersStarted := 0 } cmConfig
  ∧ (processOneConfig constUpdStrategy false
        ⟨[("web", firingBatch)], webItem, false, none, [], 0⟩ cmConfig).reg
      = [("web", firingBatch)]
  ∧ (processOneConfig constUpdStrategy false
        ⟨[("web", firingBatch)], webItem, false, none, [], 0⟩ cmConfig).timersStarted = 0 :=
  claim3_firing_falls_through constUpdStrategy false
    ⟨[("web", firingBatch)], webItem, false, none, [], 0⟩ cmConfig firingBatch
    (by decide) (by decide) (by decide) (by decide)

/-- C4.  A config whose resource name stands (exact match after trimming) in
the kind-specific exclude annotation's comma-separated list is skipped
entirely: one evaluation of that single config invokes no strategy, makes no
update call (hence emits no reload metric or event), starts no timer and
leaves registry and workload untouched — whatever the other annotations
would have fired. -/
theorem claim4_excluded_config_skipped (strategy : Strategy)
    (autoReloadAll updateSucceeds : Bool) (reg : Registry) (item : Item) (config : Config)
    (hk : (config.kindName = configmapKind
            ∧ (getAnnVal item.anns cmExcludeKey).2 = true
            ∧ checkIfResourceIsExcluded config.resourceName
                (getAnnVal item.anns cmExcludeKey).1 = true)
        ∨ (config.kindName = secretKind
            ∧ (getAnnVal item.anns secretExcludeKey).2 = true
            ∧ checkIfResourceIsExcluded config.resourceName
                (getAnnVal item.anns secretExcludeKey).1 = true)) :
    performActionOnSingleItem strategy autoReloadAll updateSucceeds reg item [config]
      = { reg := reg, item := item, calls := [], timersStarted := 0,
          updateCalls := 0, errored := false, lastConfig := some config } := by
  have hcs : (secretKind == configmapKind) = false := by decide
  have hex : isExcluded item config = true := by
    rcases hk with ⟨hkind, hfound, hlist⟩ | ⟨hkind, hfound, hlist⟩
    · simp [isExcluded, hkind, hfound, hlist]
    · simp [isExcluded, hkind, hfound, hlist, hcs]
  simp [performActionOnSingleItem, List.foldl, processOneConfig, hex]

theorem claim4_excluded_config_skipped_witness :
    performActionOnSingleItem envVarStrategy true true [] excludeItem [cmConfig]
      = { reg := [], item := excludeItem, calls := [], timersStarted := 0,
          updateCalls := 0, errored := false, lastConfig := some cmConfig } :=
  claim4_excluded_config_skipped envVarStrategy true true [] excludeItem cmConfig
    (Or.inl ⟨rfl, by decide, by decide⟩)

/-- C6.  Manual-annotation matching: every strategy call the token loop makes
passes `autoReload=false`; once a trimmed token matches the anchored pattern
and the strategy reports `Updated`, the loop stops without looking at the
remaining tokens; and under the anchored whole-string semantics the token
`foo` matches resource name `foo` (one call) but neither `foobar` nor `xfoo`
(no call). -/
theorem claim6_manual_match_semantics :
    (∀ (strategy : Strategy) (config : Config) (tokens : List String)
        (result : Result) (item : Item),
        ((manualMatchLoop strategy config tokens result item []).2.2).all
          (fun sc => !sc.autoReload) = true)
  ∧ (∀ (strategy : Strategy) (config : Config) (tok : String) (rest : List String)
        (result : Result) (item : Item),
        anchoredRegexMatch (goTrimSpace tok) config.resourceName = true →
        (strategy item config false).1 = Result.Updated →
        manualMatchLoop strategy config (tok :: rest) result item []
          = (Result.Updated, (strategy item config false).2,
             [⟨config.resourceName, Branch.manual, false⟩]))
  ∧ (manualMatchLoop constUpdStrategy fooConfig ["foo"] Result.NotUpdated plainItem []).2.2
      = [⟨"foo", Branch.manual, false⟩]
  ∧ (manualMatchLoop constUpdStrategy foobarConfig ["foo"] Result.NotUpdated
        plainItem []).2.2 = []
  ∧ (manualMatchLoop constUpdStrategy xfooConfig ["foo"] Result.NotUpdated
        plainItem []).2.2 = [] := by
  refine ⟨?_, ?_, by decide, by decide, by decide⟩
  · intro strategy config tokens result item
    exact manualMatchLoop_all strategy config tokens result item [] _ rfl rfl
  · intro strategy config tok rest result item hm hr
    simp only [manualMatchLoop, hm, if_true]
    rw [if_pos hr, hr]
    simp

/-- C7.  For an evaluation that is neither excluded nor delayed, the
auto-reload rule invokes the strategy with `autoReload=true` exactly when the
generic auto-reload annotation value parses as boolean true, or the
kind-specific typed-auto annotation value parses as boolean true, or both
values are unset/empty and the global reload-all option is on (values after
the pod-template fallback). -/
theorem claim7_auto_reload_iff (strategy : Strategy) (autoReloadAll : Bool)
    (reg : Registry) (item : Item) (config : Config)
    (hex : isExcluded item config = false)
    (hdel : (getAnnVal item.anns delayedUpgradeKey).2 = false) :
    ((processOneConfig strategy autoReloadAll
        ⟨reg, item, false, none, [], 0⟩ config).calls).any isAutoCall
      = (parseBool (effectiveValues item config).2.2.1
         || parseBool (effectiveValues item config).2.2.2
         || ((effectiveValues item config).2.2.1 == ""
             && (effectiveValues item config).2.2.2 == "" && autoReloadAll)) := by
  have hstep : processOneConfig strategy autoReloadAll ⟨reg, item, false, none, [], 0⟩ config
      = evalReloadRules strategy autoReloadAll ⟨reg, item, false, some config, [], 0⟩ config := by
    simp [processOneConfig, hex, hdel]
  rw [hstep, evalReloadRules_auto_any]
  simp

theorem claim7_auto_reload_iff_witness :
    ((processOneConfig envVarStrategy false
        ⟨[], autoItem, false, none, [], 0⟩ cmConfig).calls).any isAutoCall
      = (parseBool (effectiveValues autoItem cmConfig).2.2.1
         || parseBool (effectiveValues autoItem cmConfig).2.2.2
         || ((effectiveValues autoItem cmConfig).2.2.1 == ""
             && (effectiveValues autoItem cmConfig).2.2.2 == "" && false)) :=
  claim7_auto_reload_iff envVarStrategy false [] autoItem cmConfig (by decide) (by decide)

/-- Under a workload whose generic auto-reload annotation is the string
`true` and a strategy that reports `Updated` without touching the item, one
rule evaluation fires exactly the auto-reload call. -/
theorem evalReloadRules_auto_fire (strategy : Strategy) (autoReloadAll : Bool)
    (st : LoopState) (c : Config)
    (hauto : lookupAnn st.item.anns reloaderAutoKey = some "true")
    (hstrat : ∀ it c b, strategy it c b = (Result.Updated, it)) :
    evalReloadRules strategy autoReloadAll st c
      = { st with
          calls := st.calls ++ [⟨c.resourceName, Branch.auto, true⟩],
          atLeastOneUpdate := true } := by
  have h1 : (effectiveValues st.item c).2.2.1 = "true" := by
    simp [effectiveValues, getAnnVal, hauto]
  have hp : parseBool "true" = true := by decide
  simp only [evalReloadRules, h1, hp, Bool.true_or, if_true, hstrat]
  simp


/-- C1.  Coalescing: for a delayed-annotated workload (here with auto-reload
enabled and an updating strategy), two change events for distinct resource
names delivered while the batch is Pending make no update call and start one
timer in total; the single flush then evaluates a snapshot holding exactly
both ChangeConfigs and calls the adapter's update function exactly once. -/
theorem claim1_delayed_coalescing (strategy : Strategy) (autoReloadAll updateSucceeds : Bool)
    (item : Item) (c1 c2 : Config)
    (hdel : (getAnnVal item.anns delayedUpgradeKey).2 = true)
    (hauto : lookupAnn item.anns reloaderAutoKey = some "true")
    (hex1 : isExcluded item c1 = false)
    (hex2 : isExcluded item c2 = false)
    (hne : c1.resourceName ≠ c2.resourceName)
    (hstrat : ∀ it c b, strategy it c b = (Result.Updated, it)) :
    (coalesceTwoThenFlush strategy autoReloadAll updateSucceeds item c1 c2).1.updateCalls = 0
  ∧ (coalesceTwoThenFlush strategy autoReloadAll updateSucceeds item c1 c2).2.1.updateCalls = 0
  ∧ (coalesceTwoThenFlush strategy autoReloadAll updateSucceeds item c1 c2).1.timersStarted = 1
  ∧ (coalesceTwoThenFlush strategy autoReloadAll updateSucceeds item c1 c2).2.1.timersStarted = 0
  ∧ ∃ ev reg₂,
      (coalesceTwoThenFlush strategy autoReloadAll updateSucceeds item c1 c2).2.2
        = FlushOut.flushed [c1, c2] ev reg₂
      ∧ ev.updateCalls = 1
      ∧ c1 ∈ [c1, c2] ∧ c2 ∈ [c1, c2] := by
  have hbe : (c1.resourceName == c2.resourceName) = false := beq_eq_false_iff_ne.mpr hne
  have ho1 : performActionOnSingleItem strategy autoReloadAll updateSucceeds [] item [c1]
      = { reg := [(item.name, ⟨item.name, c1.nsName, [(c1.resourceName, c1)], false⟩)],
          item := item, calls := [], timersStarted := 1, updateCalls := 0,
          errored := false, lastConfig := some c1 } := by
    simp [performActionOnSingleItem, List.foldl, processOneConfig, hex1, hdel,
      lookupReg, insertReg, List.find?]
  have hlook1 : lookupReg [(item.name, ⟨item.name, c1.nsName, [(c1.resourceName, c1)], false⟩)]
      item.name = some ⟨item.name, c1.nsName, [(c1.resourceName, c1)], false⟩ := by
    simp [lookupReg, List.find?]
  have hdup : lookupCfg [(c1.resourceName, c1)] c2.resourceName = none := by
    simp [lookupCfg, List.find?, hbe]
  have ho2 : performActionOnSingleItem strategy autoReloadAll updateSucceeds
      [(item.name, ⟨item.name, c1.nsName, [(c1.resourceName, c1)], false⟩)] item [c2]
      = { reg := [(item.name, ⟨item.name, c1.nsName,
            [(c1.resourceName, c1), (c2.resourceName, c2)], false⟩)],
          item := item, calls := [], timersStarted := 0, updateCalls := 0,
          errored := false, lastConfig := some c2 } := by
    simp [performActionOnSingleItem, List.foldl, processOneConfig, hex2, hdel,
      hlook1, hdup, insertReg, List.find?]
  have hlook2 : lookupReg [(item.name, ⟨item.name, c1.nsName,
      [(c1.resourceName, c1), (c2.resourceName, c2)], false⟩)] item.name
      = some ⟨item.name, c1.nsName, [(c1.resourceName, c1), (c2.resourceName, c2)], false⟩ := by
    simp [lookupReg, List.find?]
  have hfind : [item].find? (fun i => i.name == item.name) = some item := by
    simp [List.find?]
  have hlookU : lookupReg [(item.name, ⟨item.name, c1.nsName,
      [(c1.resourceName, c1), (c2.resourceName, c2)], true⟩)] item.name
      = some ⟨item.name, c1.nsName, [(c1.resourceName, c1), (c2.resourceName, c2)], true⟩ := by
    simp [lookupReg, List.find?]
  have hp1 : processOneConfig strategy autoReloadAll
      { reg := [(item.name, ⟨item.name, c1.nsName,
          [(c1.resourceName, c1), (c2.resourceName, c2)], true⟩)],
        item := item, atLeastOneUpdate := false, lastConfig := none,
        calls := [], timersStarted := 0 } c1
      = { reg := [(item.name, ⟨item.name, c1.nsName,
            [(c1.resourceName, c1), (c2.resourceName, c2)], true⟩)],
          item := item, atLeastOneUpdate := true, lastConfig := some c1,
          calls := [⟨c1.resourceName, Branch.auto, true⟩], timersStarted := 0 } := by
    have hstep : processOneConfig strategy autoReloadAll
        { reg := [(item.name, ⟨item.name, c1.nsName,
            [(c1.resourceName, c1), (c2.resourceName, c2)], true⟩)],
          item := item, atLeastOneUpdate := false, lastConfig := none,
          calls := [], timersStarted := 0 } c1
        = evalReloadRules strategy autoReloadAll
            { reg := [(item.name, ⟨item.name, c1.nsName,
                [(c1.resourceName, c1), (c2.resourceName, c2)], true⟩)],
              item := item, atLeastOneUpdate := false, lastConfig := some c1,
              calls := [], timersStarted := 0 } c1 := by
      simp [processOneConfig, hex1, hdel, hlookU]
    rw [hstep, evalReloadRules_auto_fire strategy autoReloadAll _ c1 hauto hstrat]
    simp
  have hp2 : processOneConfig strategy autoReloadAll
      { reg := [(item.name, ⟨item.name, c1.nsName,
          [(c1.resourceName, c1), (c2.resourceName, c2)], true⟩)],
        item := item, atLeastOneUpdate := true, lastConfig := some c1,
        calls := [⟨c1.resourceName, Branch.auto, true⟩], timersStarted := 0 } c2
      = { reg := [(item.name, ⟨item.name, c1.nsName,
            [(c1.resourceName, c1), (c2.resourceName, c2)], true⟩)],
          item := item, atLeastOneUpdate := true, lastConfig := some c2,
          calls := [⟨c1.resourceName, Branch.auto, true⟩, ⟨c2.resourceName, Branch.auto, true⟩],
          timersStarted := 0 } := by
    have hstep : processOneConfig strategy autoReloadAll
        { reg := [(item.name, ⟨item.name, c1.nsName,
            [(c1.resourceName, c1), (c2.resourceName, c2)], true⟩)],
          item := item, atLeastOneUpdate := true, lastConfig := some c1,
          calls := [⟨c1.resourceName, Branch.auto, true⟩], timersStarted := 0 } c2
        = evalReloadRules strategy autoReloadAll
            { reg := [(item.name, ⟨item.name, c1.nsName,
                [(c1.resourceName, c1), (c2.resourceName, c2)], true⟩)],
              item := item, atLeastOneUpdate := true, lastConfig := some c2,
              calls := [⟨c1.resourceName, Branch.auto, true⟩], timersStarted := 0 } c2 := by
      simp [processOneConfig, hex2, hdel, hlookU]
    rw [hstep, evalReloadRules_auto_fire strategy autoReloadAll _ c2 hauto hstrat]
    simp
  have heval : performActionOnSingleItem strategy autoReloadAll updateSucceeds
      [(item.name, ⟨item.name, c1.nsName,
        [(c1.resourceName, c1), (c2.resourceName, c2)], true⟩)] item [c1, c2]
      = { reg := [(item.name, ⟨item.name, c1.nsName,
            [(c1.resourceName, c1), (c2.resourceName, c2)], true⟩)],
          item := item,
          calls := [⟨c1.resourceName, Branch.auto, true⟩, ⟨c2.resourceName, Branch.auto, true⟩],
          timersStarted := 0, updateCalls := 1, errored := !updateSucceeds,
          lastConfig := some c2 } := by
    simp only [performActionOnSingleItem, List.foldl, hp1, hp2]
    simp
  have hflush : performDelayedUpgrade strategy autoReloadAll updateSucceeds [item] item.name
      [(item.name, ⟨item.name, c1.nsName,
        [(c1.resourceName, c1), (c2.resourceName, c2)], false⟩)]
      = FlushOut.flushed [c1, c2]
          { reg := [(item.name, ⟨item.name, c1.nsName,
              [(c1.resourceName, c1), (c2.resourceName, c2)], true⟩)],
            item := item,
            calls := [⟨c1.resourceName, Branch.auto, true⟩, ⟨c2.resourceName, Branch.auto, true⟩],
            timersStarted := 0, updateCalls := 1, errored := !updateSucceeds,
            lastConfig := some c2 } [] := by
    simp only [performDelayedUpgrade, hlook2, hfind]
    have hins : insertReg [(item.name, ⟨item.name, c1.nsName,
        [(c1.resourceName, c1), (c2.resourceName, c2)], false⟩)] item.name
        ⟨item.name, c1.nsName, [(c1.resourceName, c1), (c2.resourceName, c2)], true⟩
        = [(item.name, ⟨item.name, c1.nsName,
            [(c1.resourceName, c1), (c2.resourceName, c2)], true⟩)] := by
      simp [insertReg]
    simp only [List.map, hins]
    rw [heval]
    simp [eraseReg, List.filter]
  have hco : coalesceTwoThenFlush strategy autoReloadAll updateSucceeds item c1 c2
      = ({ reg := [(item.name, ⟨item.name, c1.nsName, [(c1.resourceName, c1)], false⟩)],
           item := item, calls := [], timersStarted := 1, updateCalls := 0,
           errored := false, lastConfig := some c1 },
         { reg := [(item.name, ⟨item.name, c1.nsName,
             [(c1.resourceName, c1), (c2.resourceName, c2)], false⟩)],
           item := item, calls := [], timersStarted := 0, updateCalls := 0,
           errored := false, lastConfig := some c2 },
         FlushOut.flushed [c1, c2]
           { reg := [(item.name, ⟨item.name, c1.nsName,
               [(c1.resourceName, c1), (c2.resourceName, c2)], true⟩)],
             item := item,
             calls := [⟨c1.resourceName, Branch.auto, true⟩,
               ⟨c2.resourceName, Branch.auto, true⟩],
             timersStarted := 0, updateCalls := 1, errored := !updateSucceeds,
             lastConfig := some c2 } []) := by
    simp only [coalesceTwoThenFlush, ho1, ho2, hflush]
  rw [hco]
  refine ⟨rfl, rfl, rfl, rfl, _, _, rfl, rfl, ?_, ?_⟩
  · exact List.mem_cons_self _ _
  · exact List.mem_cons_of_mem _ (List.mem_cons_self _ _)


theorem claim1_delayed_coalescing_witness :
    (coalesceTwoThenFlush constUpdStrategy false true webItem cmConfig cm2Config).1.updateCalls = 0
  ∧ (coalesceTwoThenFlush constUpdStrategy false true webItem cmConfig cm2Config).2.1.updateCalls = 0
  ∧ (coalesceTwoThenFlush constUpdStrategy false true webItem cmConfig cm2Config).1.timersStarted = 1
  ∧ (coalesceTwoThenFlush constUpdStrategy false true webItem cmConfig cm2Config).2.1.timersStarted = 0
  ∧ ∃ ev reg₂,
      (coalesceTwoThenFlush constUpdStrategy false true webItem cmConfig cm2Config).2.2
        = FlushOut.flushed [cmConfig, cm2Config] ev reg₂
      ∧ ev.updateCalls = 1
      ∧ cmConfig ∈ [cmConfig, cm2Config] ∧ cm2Config ∈ [cmConfig, cm2Config] :=
  claim1_delayed_coalescing constUpdStrategy false true webItem cmConfig cm2Config
    (by decide) (by decide) (by decide) (by decide) (by decide) (fun _ _ _ => rfl)

end Reloader
